import Mathlib

/-!
Verification development for the mhcnames core: the key-normalizing
associative container (normalizing_dictionary.py) and the naming
hierarchy (allele_group.py, with Locus modelled from the spec since
locus.py is not part of the provided sources).

Python values that can occur as keys and values of the container are
modelled by `PyObj`: hashable atoms (strings and integers) and sets of
atoms.  Python dictionaries are modelled as insertion-ordered
association lists (matching dict semantics: updating an existing key
keeps its position and first-inserted key object; new keys are appended).
Python sets are modelled as duplicate-free insertion-ordered lists.
Strings are modelled over Lean characters with ASCII upper-casing,
matching the ASCII identifiers the library manipulates.  `None` keys and
values are outside the model (the source rejects them by assertion).
-/

inductive PyAtom where
  | str : String → PyAtom
  | int : Int → PyAtom
  deriving DecidableEq, Repr

inductive PyObj where
  | atom : PyAtom → PyObj
  | set : List PyAtom → PyObj
  deriving DecidableEq, Repr

def pstr (s : String) : PyObj := .atom (.str s)

def pint (n : Int) : PyObj := .atom (.int n)

/-- Python exception outcomes that the modelled code can raise. -/
inductive PyErr where
  | keyError : PyObj → PyErr
  | valueError : String → PyErr
  | typeError : PyErr
  | attributeError : PyErr
  | assertionError : PyErr
  deriving DecidableEq, Repr

/-- characters Python str.strip removes: space, tab, newline, carriage
return, vertical tab, form feed (ASCII model). -/
def isPySpace (c : Char) : Bool :=
  decide (c = ' ') || decide (c = Char.ofNat 9) || decide (c = Char.ofNat 10) ||
  decide (c = Char.ofNat 13) || decide (c = Char.ofNat 11) || decide (c = Char.ofNat 12)

/-- ASCII model of Python str.upper applied to one character. -/
def pyUpperChar (c : Char) : Char :=
  if c.toNat ≥ 97 ∧ c.toNat ≤ 122 then Char.ofNat (c.toNat - 32) else c

/-- Python name.upper() over the character list of a string. -/
def pyUpper (l : List Char) : List Char := l.map pyUpperChar

/-- Python name.strip(): drop surrounding whitespace from both ends. -/
def pyStrip (l : List Char) : List Char :=
  ((l.dropWhile isPySpace).reverse.dropWhile isPySpace).reverse

/-- Python `c in name` for a single character c. -/
def pyContains (l : List Char) (c : Char) : Bool :=
  l.any (fun x => decide (x = c))

/-- Python name.replace(c, ""): remove every occurrence of c. -/
def pyRemoveAll (l : List Char) (c : Char) : List Char :=
  l.filter (fun x => decide (¬ x = c))

/-- default chars_to_remove argument: hyphen, underscore, apostrophe. -/
def defaultCharsToRemove : List Char := ['-', '_', Char.ofNat 39]

/-- normalize_string from normalizing_dictionary.py: non-strings pass
through unchanged; strings are stripped when they contain a space
character, upper-cased, and cleared of every character of
chars_to_remove (each removal guarded by a containment test, as in the
source). -/
def normalize_string (name : PyObj) (chars_to_remove : List Char) : PyObj :=
  match name with
  | .atom (.str s) =>
    .atom (.str (String.mk
      (chars_to_remove.foldl
        (fun acc c => if pyContains acc c then pyRemoveAll acc c else acc)
        (pyUpper (if pyContains s.data ' ' then pyStrip s.data else s.data)))))
  | other => other

/-- the default normalizer used by NormalizingDictionary. -/
def nfn : PyObj → PyObj := fun p => normalize_string p defaultCharsToRemove

/-- lookup in a Python dict modelled as an association list. -/
def alistGet {β : Type} (l : List (PyObj × β)) (k : PyObj) : Option β :=
  match l with
  | [] => none
  | p :: t => if p.1 = k then some p.2 else alistGet t k

/-- d[k] = v on a Python dict: an existing key keeps its position and
its first-inserted key object; a new key is appended. -/
def alistSet {β : Type} (l : List (PyObj × β)) (k : PyObj) (v : β) : List (PyObj × β) :=
  match l with
  | [] => [(k, v)]
  | p :: t => if p.1 = k then (p.1, v) :: t else p :: alistSet t k v

/-- d.get(k, fallback) on a Python dict. -/
def alistGetD {β : Type} (l : List (PyObj × β)) (k : PyObj) (d : β) : β :=
  (alistGet l k).getD d

/-- s.add(x) on a Python set of dictionary keys. -/
def setInsert (l : List PyObj) (x : PyObj) : List PyObj :=
  if x ∈ l then l else l ++ [x]

/-- s.add(a) on a Python set of atoms. -/
def setInsertAtom (l : List PyAtom) (a : PyAtom) : List PyAtom :=
  if a ∈ l then l else l ++ [a]

/-- equality of two Python sets modelled as lists: same members. -/
def sameMembers (l1 l2 : List PyObj) : Prop :=
  (∀ x ∈ l1, x ∈ l2) ∧ (∀ x ∈ l2, x ∈ l1)

instance instDecidableSameMembers (l1 l2 : List PyObj) : Decidable (sameMembers l1 l2) := by
  unfold sameMembers; exact inferInstance

/-- NormalizingDictionary state: the value store keyed by normalized
keys, the two original-key indexes, the normalizer, and the optional
default-value factory (modelled by the value a pure factory returns;
`set` is `some (.set [])`). -/
structure NormalizingDictionary where
  store : List (PyObj × PyObj)
  original_to_normalized_key_dict : List (PyObj × PyObj)
  normalized_to_original_keys_dict : List (PyObj × List PyObj)
  normalize_fn : PyObj → PyObj
  default_value_fn : Option PyObj

/-- a NormalizingDictionary with no entries, as built by __init__ before
update_pairs runs. -/
def NormalizingDictionary.empty (nf : PyObj → PyObj) (df : Option PyObj) :
    NormalizingDictionary :=
  ⟨[], [], [], nf, df⟩

/-- __setitem__: record k → nk, add k to the original-key set of nk
(defaultdict(set) semantics), and overwrite store[nk]. -/
def NormalizingDictionary.setitem (d : NormalizingDictionary) (k v : PyObj) :
    NormalizingDictionary :=
  { d with
    original_to_normalized_key_dict :=
      alistSet d.original_to_normalized_key_dict k (d.normalize_fn k)
    normalized_to_original_keys_dict :=
      alistSet d.normalized_to_original_keys_dict (d.normalize_fn k)
        (setInsert (alistGetD d.normalized_to_original_keys_dict (d.normalize_fn k) []) k)
    store := alistSet d.store (d.normalize_fn k) v }

/-- update_pairs: insert each pair in order via __setitem__. -/
def NormalizingDictionary.update_pairs (d : NormalizingDictionary)
    (pairs : List (PyObj × PyObj)) : NormalizingDictionary :=
  pairs.foldl (fun a p => a.setitem p.1 p.2) d

/-- __init__(*pairs, normalize_fn, default_value_fn). -/
def NormalizingDictionary.ofPairs (pairs : List (PyObj × PyObj))
    (nf : PyObj → PyObj) (df : Option PyObj) : NormalizingDictionary :=
  (NormalizingDictionary.empty nf df).update_pairs pairs

/-- __getitem__: on a hit return the stored value; on a miss with a
default factory store and return the freshly created default (note the
original-key indexes are not touched); otherwise raise KeyError(k). -/
def NormalizingDictionary.getitem (d : NormalizingDictionary) (k : PyObj) :
    Except PyErr (PyObj × NormalizingDictionary) :=
  match alistGet d.store (d.normalize_fn k) with
  | some v => .ok (v, d)
  | none =>
    match d.default_value_fn with
    | some v0 => .ok (v0, { d with store := alistSet d.store (d.normalize_fn k) v0 })
    | none => .error (.keyError k)

/-- the value __getitem__ returns. -/
def NormalizingDictionary.lookup_value (d : NormalizingDictionary) (k : PyObj) :
    Except PyErr PyObj :=
  (d.getitem k).map Prod.fst

/-- the container state after __getitem__ (it can grow on a miss). -/
def NormalizingDictionary.lookup_state (d : NormalizingDictionary) (k : PyObj) :
    NormalizingDictionary :=
  match d.getitem k with
  | .ok r => r.2
  | .error _ => d

/-- __contains__: the normalized key is present in the store. -/
def NormalizingDictionary.contains (d : NormalizingDictionary) (k : PyObj) : Bool :=
  (alistGet d.store (d.normalize_fn k)).isSome

/-- get(k, v): store.get(normalize_fn(k), v), never mutates. -/
def NormalizingDictionary.get (d : NormalizingDictionary) (k fallback : PyObj) : PyObj :=
  alistGetD d.store (d.normalize_fn k) fallback

/-- original_keys: the set of original keys sharing the normalized form
of k, empty when the normalized form was never inserted. -/
def NormalizingDictionary.original_keys (d : NormalizingDictionary) (k : PyObj) :
    List PyObj :=
  alistGetD d.normalized_to_original_keys_dict (d.normalize_fn k) []

/-- original_key: KeyError(k) on no match; the sole key on one match; on
several matches the source builds the ValueError message with a format
string holding two placeholders but a one-element tuple `(ks,)`, which
raises TypeError before the ValueError exists. -/
def NormalizingDictionary.original_key (d : NormalizingDictionary) (k : PyObj) :
    Except PyErr PyObj :=
  match d.original_keys k with
  | [] => .error (.keyError k)
  | [x] => .ok x
  | _ :: _ :: _ => .error .typeError

/-- normalized_keys: store.keys(). -/
def NormalizingDictionary.normalized_keys (d : NormalizingDictionary) : List PyObj :=
  d.store.map Prod.fst

/-- values: store.values(). -/
def NormalizingDictionary.values (d : NormalizingDictionary) : List PyObj :=
  d.store.map Prod.snd

/-- key_sets_aligned_with_values: the original-key set for each
normalized key of the store.  The source reads the defaultdict with
subscription, which inserts an empty set on a miss; that insertion is
observationally irrelevant (every later read treats a missing entry and
a stored empty set alike), so the model reads without mutation. -/
def NormalizingDictionary.key_sets_aligned_with_values (d : NormalizingDictionary) :
    List (List PyObj) :=
  d.store.map (fun p => alistGetD d.normalized_to_original_keys_dict p.1 [])

/-- keys_aligned_with_values: one representative original key per stored
value; `assert len(ks) > 0` raises AssertionError on an empty set. -/
def NormalizingDictionary.keys_aligned_with_values (d : NormalizingDictionary) :
    Except PyErr (List PyObj) :=
  d.key_sets_aligned_with_values.mapM (fun ks =>
    match ks with
    | [] => .error .assertionError
    | x :: _ => .ok x)

/-- items: zip of keys_aligned_with_values with values. -/
def NormalizingDictionary.items (d : NormalizingDictionary) :
    Except PyErr (List (PyObj × PyObj)) :=
  (d.keys_aligned_with_values).map (fun ks => ks.zip d.values)

/-- map_values(fn): rebuild from items with fn applied to each value. -/
def NormalizingDictionary.map_values (d : NormalizingDictionary) (f : PyObj → PyObj) :
    Except PyErr NormalizingDictionary :=
  (d.items).map (fun its =>
    NormalizingDictionary.ofPairs (its.map (fun p => (p.1, f p.2)))
      d.normalize_fn d.default_value_fn)

/-- map_keys(fn): rebuild from items with fn applied to each key. -/
def NormalizingDictionary.map_keys (d : NormalizingDictionary) (f : PyObj → PyObj) :
    Except PyErr NormalizingDictionary :=
  (d.items).map (fun its =>
    NormalizingDictionary.ofPairs (its.map (fun p => (f p.1, p.2)))
      d.normalize_fn d.default_value_fn)

/-- result[vi].add(k) inside invert: __getitem__ with the `set` factory
(which stores a fresh empty set on a miss), then an in-place add on the
returned set object.  Adding an unhashable set raises TypeError; calling
add on a non-set value raises AttributeError. -/
def NormalizingDictionary.add_value_key (d : NormalizingDictionary) (vi k : PyObj) :
    Except PyErr NormalizingDictionary :=
  match d.getitem vi with
  | .error e => .error e
  | .ok (v, d1) =>
    match v, k with
    | .set s, .atom a =>
      .ok { d1 with store := alistSet d1.store (d1.normalize_fn vi) (.set (setInsertAtom s a)) }
    | .set _, .set _ => .error .typeError
    | _, _ => .error .attributeError

/-- invert: start from an empty container with default_value_fn = set,
and for every (k, v) of items add k to result[vi] for each element vi of
v (v itself when v is not a collection). -/
def NormalizingDictionary.invert (d : NormalizingDictionary) :
    Except PyErr NormalizingDictionary :=
  match d.items with
  | .error e => .error e
  | .ok its =>
    its.foldlM
      (fun acc kv =>
        (match kv.2 with
         | .set vs => vs.map PyObj.atom
         | v => [v]).foldlM (fun acc2 vi => acc2.add_value_key vi kv.1) acc)
      (NormalizingDictionary.empty d.normalize_fn (some (.set [])))

/-- __len__: the number of distinct normalized keys stored. -/
def NormalizingDictionary.size (d : NormalizingDictionary) : Nat :=
  d.store.length

/-- Modelled from the spec: Locus (locus.py is not among the provided
sources) carries a species prefix and a gene name.  The field holding
the species prefix is named species_pfx here. -/
structure Locus where
  species_pfx : String
  gene_name : String
  deriving DecidableEq, Repr

/-- Modelled from the spec: Locus.NormalizedString renders
"{species}-{gene}" when the species is included, else "{gene}". -/
def Locus.normalized_string (l : Locus) (include_species : Bool) : String :=
  if include_species then l.species_pfx ++ "-" ++ l.gene_name else l.gene_name

/-- Modelled from the spec: Locus.CompactString is the same content with
the separator removed: "{species}{gene}" or "{gene}". -/
def Locus.compact_string (l : Locus) (include_species : Bool) : String :=
  if include_species then l.species_pfx ++ l.gene_name else l.gene_name

/-- AlleleGroup from allele_group.py: a Locus plus a group identifier. -/
structure AlleleGroup where
  species_pfx : String
  gene_name : String
  group_id : String
  deriving DecidableEq, Repr

/-- the Locus part of an AlleleGroup. -/
def AlleleGroup.toLocus (a : AlleleGroup) : Locus :=
  ⟨a.species_pfx, a.gene_name⟩

/-- AlleleGroup.normalized_string: the Locus rendering, an asterisk,
then the group id. -/
def AlleleGroup.normalized_string (a : AlleleGroup) (include_species : Bool) : String :=
  (a.toLocus.normalized_string include_species) ++ "*" ++ a.group_id

/-- AlleleGroup.compact_string as written in allele_group.py: the body
evaluates `Locus.compact_string(include_species=include_species)`, an
unbound function applied without its `self` argument, so Python raises
TypeError before any string is built. -/
def AlleleGroup.compact_string (_a : AlleleGroup) (_include_species : Bool) :
    Except PyErr String :=
  .error .typeError

/-- the compact_string call as evidently intended, with `self` passed:
the Locus compact rendering immediately followed by the group id. -/
def AlleleGroup.compact_string_intended (a : AlleleGroup) (include_species : Bool) :
    String :=
  a.toLocus.compact_string include_species ++ a.group_id

/-- the container of the spec example: pairs ("hla-a", 1), ("HLA_A", 2),
("hla a", 3) with the default normalizer and no default factory. -/
def exampleDictC2 : NormalizingDictionary :=
  NormalizingDictionary.ofPairs
    [(pstr "hla-a", pint 1), (pstr "HLA_A", pint 2), (pstr "hla a", pint 3)]
    nfn none

/-- a container with two original keys sharing one normalized form. -/
def exampleDictC3 : NormalizingDictionary :=
  NormalizingDictionary.ofPairs
    [(pstr "a-b", pint 1), (pstr "ab", pint 2)]
    nfn none

/-- an empty container configured with the `set` default factory. -/
def exampleDictC4 : NormalizingDictionary :=
  NormalizingDictionary.empty nfn (some (.set []))

/-- a one-entry container with a scalar value. -/
def exampleDictC5 : NormalizingDictionary :=
  NormalizingDictionary.ofPairs [(pstr "a", pint 1)] nfn none

/-- the container invert produces from exampleDictC5: the value 1 maps
to the set of keys that produced it, and both original-key indexes are
empty because invert populates only the store. -/
def invExampleC5 : NormalizingDictionary :=
  ⟨[(pint 1, .set [.str "a"])], [], [], exampleDictC5.normalize_fn, some (.set [])⟩

/-- the invariant of the spec: every normalized key present in the value
store has at least one recorded original key. -/
def invariantHolds (d : NormalizingDictionary) : Bool :=
  d.store.all (fun p =>
    !(alistGetD d.normalized_to_original_keys_dict p.1 []).isEmpty)

deriving instance DecidableEq for Except

/-- Modelled from the spec (amended claim): containment of a space
character, written by direct recursion. -/
def hasSpaceSpec : List Char → Bool
  | [] => false
  | c :: t => decide (c = ' ') || hasSpaceSpec t

/-- Modelled from the spec (amended claim): drop leading whitespace. -/
def dropLeadingWS : List Char → List Char
  | [] => []
  | c :: t => if isPySpace c then dropLeadingWS t else c :: t

/-- Modelled from the spec (amended claim): drop trailing whitespace. -/
def dropTrailingWS : List Char → List Char
  | [] => []
  | c :: t =>
    match dropTrailingWS t with
    | [] => if isPySpace c then [] else [c]
    | x :: r => c :: x :: r

/-- Modelled from the spec (amended claim): strip surrounding
whitespace from both ends. -/
def stripSpec (l : List Char) : List Char :=
  dropTrailingWS (dropLeadingWS l)

/-- Modelled from the spec (amended claim): remove every occurrence of
each character of the removal set, as one filter over set membership. -/
def removeSetSpec (chars : List Char) (l : List Char) : List Char :=
  l.filter (fun x => decide (¬ x ∈ chars))

/-- Modelled from the spec (amended claim C9): non-textual values pass
through unchanged; a string is stripped of surrounding whitespace
whenever a space character occurs anywhere in it, upper-cased, and
cleared of every character of the removal set. -/
def normalizeSpecAmended (chars : List Char) (name : PyObj) : PyObj :=
  match name with
  | .atom (.str s) =>
    .atom (.str (String.mk (removeSetSpec chars
      (pyUpper (if hasSpaceSpec s.data then stripSpec s.data else s.data)))))
  | other => other

theorem hasSpaceSpec_eq (l : List Char) : hasSpaceSpec l = pyContains l ' ' := by
  induction l with
  | nil => rfl
  | cons c t ih => simp [hasSpaceSpec, pyContains, List.any_cons, ih]

theorem dropLeadingWS_eq (l : List Char) : dropLeadingWS l = l.dropWhile isPySpace := by
  induction l with
  | nil => rfl
  | cons c t ih =>
    by_cases h : isPySpace c = true
    · simp [dropLeadingWS, List.dropWhile_cons, h, ih]
    · simp [dropLeadingWS, List.dropWhile_cons, h]

theorem dropTrailingWS_eq (l : List Char) :
    dropTrailingWS l = (l.reverse.dropWhile isPySpace).reverse := by
  induction l with
  | nil => rfl
  | cons c t ih =>
    show (match dropTrailingWS t with
          | [] => if isPySpace c then [] else [c]
          | x :: r => c :: x :: r) = _
    rw [List.reverse_cons, List.dropWhile_append]
    cases hu : (t.reverse.dropWhile isPySpace) with
    | nil =>
      have ht : dropTrailingWS t = [] := by rw [ih, hu]; rfl
      rw [ht]
      by_cases h : isPySpace c = true <;>
        simp [hu, List.dropWhile_cons, h]
    | cons y r =>
      have ht : dropTrailingWS t = (y :: r).reverse := by rw [ih, hu]
      cases hd : (y :: r).reverse with
      | nil => exact absurd hd (by simp)
      | cons z zs =>
        rw [ht, hd]
        simp [hu, ← hd]

theorem stripSpec_eq (l : List Char) : stripSpec l = pyStrip l := by
  rw [stripSpec, pyStrip, dropLeadingWS_eq, dropTrailingWS_eq]

theorem remove_step_eq (l : List Char) (c : Char) :
    (if pyContains l c then pyRemoveAll l c else l) = pyRemoveAll l c := by
  by_cases h : pyContains l c = true
  · rw [if_pos h]
  · rw [if_neg h]
    symm
    apply List.filter_eq_self.mpr
    intro x hx
    simp only [decide_eq_true_eq]
    intro he
    apply h
    unfold pyContains
    rw [List.any_eq_true]
    exact ⟨x, hx, by simp [he]⟩

theorem removal_foldl_eq (chars : List Char) :
    ∀ l : List Char,
      chars.foldl (fun acc c => if pyContains acc c then pyRemoveAll acc c else acc) l
        = removeSetSpec chars l := by
  induction chars with
  | nil =>
    intro l
    simp [removeSetSpec, List.filter_eq_self]
  | cons c cs ih =>
    intro l
    rw [List.foldl_cons, remove_step_eq, ih, removeSetSpec, removeSetSpec,
      pyRemoveAll, List.filter_filter]
    apply List.filter_congr
    intro x _
    by_cases h1 : x = c <;> by_cases h2 : x ∈ cs <;> simp [h1, h2]

theorem alistGet_alistSet_self {β : Type} (l : List (PyObj × β)) (k : PyObj) (v : β) :
    alistGet (alistSet l k v) k = some v := by
  induction l with
  | nil => simp [alistSet, alistGet]
  | cons p t ih =>
    by_cases h : p.1 = k
    · simp [alistSet, alistGet, h]
    · simp [alistSet, alistGet, h, ih]

theorem getitem_preserves_keys_index (d : NormalizingDictionary) (k : PyObj)
    (v : PyObj) (d1 : NormalizingDictionary) (h : d.getitem k = .ok (v, d1)) :
    d1.normalized_to_original_keys_dict = d.normalized_to_original_keys_dict := by
  unfold NormalizingDictionary.getitem at h
  split at h
  · cases h
    rfl
  · split at h
    · cases h
      rfl
    · cases h

theorem add_value_key_preserves_keys_index (d : NormalizingDictionary) (vi k : PyObj)
    (d' : NormalizingDictionary) (h : d.add_value_key vi k = .ok d') :
    d'.normalized_to_original_keys_dict = d.normalized_to_original_keys_dict := by
  unfold NormalizingDictionary.add_value_key at h
  split at h
  · cases h
  · rename_i v d1 heq
    split at h
    · cases h
      show d1.normalized_to_original_keys_dict = _
      exact getitem_preserves_keys_index d vi _ d1 heq
    · cases h
    · cases h

theorem foldlM_preserves_keys_index {α : Type}
    (f : NormalizingDictionary → α → Except PyErr NormalizingDictionary)
    (hf : ∀ a x b, f a x = .ok b →
      b.normalized_to_original_keys_dict = a.normalized_to_original_keys_dict) :
    ∀ (l : List α) (a b : NormalizingDictionary), List.foldlM f a l = .ok b →
      b.normalized_to_original_keys_dict = a.normalized_to_original_keys_dict := by
  intro l
  induction l with
  | nil =>
    intro a b h
    simp only [List.foldlM_nil] at h
    cases h
    rfl
  | cons x xs ih =>
    intro a b h
    rw [List.foldlM_cons] at h
    cases hfa : f a x with
    | error e =>
      rw [hfa] at h
      cases h
    | ok a' =>
      rw [hfa] at h
      simp only [Bind.bind, Except.bind] at h
      exact (ih a' b h).trans (hf a x a' hfa)

theorem invert_keys_index_empty (d d' : NormalizingDictionary)
    (h : d.invert = .ok d') : d'.normalized_to_original_keys_dict = [] := by
  unfold NormalizingDictionary.invert at h
  split at h
  · cases h
  · refine foldlM_preserves_keys_index _ ?_ _ _ d' h
    intro a x b hb
    exact foldlM_preserves_keys_index _
      (fun a2 x2 b2 h2 => add_value_key_preserves_keys_index a2 x2 x.1 b2 h2)
      _ a b hb

/-- C1: AlleleGroup("HLA", "A", "02") renders its normalized string as
"HLA-A*02"; its compact_string raises TypeError, because the source
calls Locus.compact_string without the self argument; the call as
intended (self passed) would return "HLAA02", the locus compact
rendering immediately followed by the group id. -/
theorem claim_C1_allele_group_strings :
    AlleleGroup.normalized_string ⟨"HLA", "A", "02"⟩ true = "HLA-A*02" ∧
    AlleleGroup.compact_string ⟨"HLA", "A", "02"⟩ true = .error .typeError ∧
    AlleleGroup.compact_string_intended ⟨"HLA", "A", "02"⟩ true = "HLAA02" := by
  decide

/-- C2 counterexample: the container built from ("hla-a", 1),
("HLA_A", 2), ("hla a", 3) with the default normalizer does not have
size 1 with Lookup("HLAA") = 3: the normalizer removes no interior
space, so "hla a" lands under the distinct normalized key "HLA A". -/
theorem claim_C2_counterexample :
    ¬ (exampleDictC2.size = 1 ∧
       exampleDictC2.lookup_value (pstr "HLAA") = .ok (pint 3)) := by
  decide

/-- C2 amended: that container has size 2; Lookup("HLAA") returns 2
(the value of the second pair), and Lookup("hla a") returns 3 from the
separate normalized key "HLA A". -/
theorem claim_C2_amended :
    exampleDictC2.size = 2 ∧
    exampleDictC2.lookup_value (pstr "HLAA") = .ok (pint 2) ∧
    exampleDictC2.lookup_value (pstr "hla a") = .ok (pint 3) := by
  decide

/-- C3: with no matching original key, original_key raises KeyError
naming the key; with exactly one match it returns that key; with two
distinct matches the source raises TypeError instead of the documented
ValueError naming the candidates, because its message format string has
two placeholders but receives the one-element tuple (ks,). -/
theorem claim_C3_original_key_ambiguity :
    nfn (pstr "a-b") = nfn (pstr "ab") ∧
    pstr "a-b" ≠ pstr "ab" ∧
    exampleDictC3.original_keys (pstr "ab") = [pstr "a-b", pstr "ab"] ∧
    exampleDictC3.original_key (pstr "ab") = .error .typeError ∧
    exampleDictC3.original_key (pstr "zz") = .error (.keyError (pstr "zz")) ∧
    (NormalizingDictionary.ofPairs [(pstr "a-b", pint 1)] nfn none).original_key
      (pstr "AB") = .ok (pstr "a-b") := by
  decide

/-- C4: the insertion path preserves the invariant (every stored
normalized key has an original key recorded), but the default-value
path of Lookup stores under the normalized key "X" without recording
any original key, and invert leaves the invariant false for every
stored key of its result. -/
theorem claim_C4_invariant_broken_by_default_lookup :
    invariantHolds exampleDictC2 = true ∧
    invariantHolds exampleDictC4 = true ∧
    (exampleDictC4.lookup_state (pstr "x")).contains (pstr "x") = true ∧
    invariantHolds (exampleDictC4.lookup_state (pstr "x")) = false ∧
    (exampleDictC4.lookup_state (pstr "x")).original_keys (pstr "x") = [] ∧
    exampleDictC5.invert.map invariantHolds = .ok false := by
  decide

/-- C5: inverting the scalar-valued container built from ("a", 1) once
succeeds, but inverting the result raises AssertionError: the first
invert records no original keys, so keys_aligned_with_values of the
intermediate container trips its own `assert len(ks) > 0`; the claimed
double-invert round trip fails on every nonempty scalar container. -/
theorem claim_C5_double_invert_assertion_error :
    exampleDictC5.invert = .ok invExampleC5 ∧
    invExampleC5.invert = .error .assertionError :=
  ⟨rfl, rfl⟩

/-- C6: for keys with equal normalized forms, inserting (k1, v1) then
(k2, v2) into a freshly constructed container leaves exactly one store
entry, keyed by the shared normalized form and holding v2 (last write
wins), Lookup(k1) returns v2, and OriginalKeys(k1) is the set
{k1, k2}. -/
theorem claim_C6_last_write_wins (nf : PyObj → PyObj) (df : Option PyObj)
    (k1 k2 v1 v2 : PyObj) (heq : nf k1 = nf k2) :
    (NormalizingDictionary.ofPairs [(k1, v1), (k2, v2)] nf df).store = [(nf k1, v2)] ∧
    (NormalizingDictionary.ofPairs [(k1, v1), (k2, v2)] nf df).lookup_value k1 = .ok v2 ∧
    sameMembers
      ((NormalizingDictionary.ofPairs [(k1, v1), (k2, v2)] nf df).original_keys k1)
      [k1, k2] := by
  refine ⟨?_, ?_, ?_⟩
  · simp [NormalizingDictionary.ofPairs, NormalizingDictionary.update_pairs,
      NormalizingDictionary.empty, NormalizingDictionary.setitem,
      alistSet, alistGet, alistGetD, setInsert, heq]
  · simp [NormalizingDictionary.ofPairs, NormalizingDictionary.update_pairs,
      NormalizingDictionary.empty, NormalizingDictionary.setitem,
      NormalizingDictionary.lookup_value, NormalizingDictionary.getitem,
      alistSet, alistGet, alistGetD, setInsert, heq, Except.map]
  · by_cases hk : k2 = k1 <;>
      simp [NormalizingDictionary.ofPairs, NormalizingDictionary.update_pairs,
        NormalizingDictionary.empty, NormalizingDictionary.setitem,
        NormalizingDictionary.original_keys, sameMembers,
        alistSet, alistGet, alistGetD, setInsert, heq, hk]

/-- C6 witness: the two spellings hla-a and HLA_A share the normalized
form HLAA under the default normalizer. -/
theorem claim_C6_witness :
    (NormalizingDictionary.ofPairs [(pstr "hla-a", pint 1), (pstr "HLA_A", pint 2)]
      nfn none).store = [(nfn (pstr "hla-a"), pint 2)] ∧
    (NormalizingDictionary.ofPairs [(pstr "hla-a", pint 1), (pstr "HLA_A", pint 2)]
      nfn none).lookup_value (pstr "hla-a") = .ok (pint 2) ∧
    sameMembers
      ((NormalizingDictionary.ofPairs [(pstr "hla-a", pint 1), (pstr "HLA_A", pint 2)]
        nfn none).original_keys (pstr "hla-a"))
      [pstr "hla-a", pstr "HLA_A"] :=
  claim_C6_last_write_wins nfn none (pstr "hla-a") (pstr "HLA_A") (pint 1) (pint 2)
    (by decide)

/-- C7: for a key whose normalized form is absent from the store,
Lookup raises KeyError naming the original key when no default factory
is configured; with a factory returning v0 it returns v0, stores it
under the normalized key, and Contains becomes true afterwards. -/
theorem claim_C7_lookup_missing_key (d : NormalizingDictionary) (k : PyObj)
    (h : alistGet d.store (d.normalize_fn k) = none) :
    (d.default_value_fn = none → d.lookup_value k = .error (.keyError k)) ∧
    (∀ v0, d.default_value_fn = some v0 →
      d.lookup_value k = .ok v0 ∧
      alistGet (d.lookup_state k).store (d.normalize_fn k) = some v0 ∧
      (d.lookup_state k).contains k = true) := by
  constructor
  · intro hdf
    simp [NormalizingDictionary.lookup_value, NormalizingDictionary.getitem, h, hdf,
      Except.map]
  · intro v0 hdf
    refine ⟨?_, ?_, ?_⟩ <;>
      simp [NormalizingDictionary.lookup_value, NormalizingDictionary.lookup_state,
        NormalizingDictionary.getitem, NormalizingDictionary.contains, h, hdf,
        alistGet_alistSet_self, Except.map]

/-- C7 witness: with the `set` factory Lookup("x") on an empty
container returns the empty set and Contains("x") holds afterwards;
without a factory it raises KeyError("x"). -/
theorem claim_C7_witness :
    exampleDictC4.lookup_value (pstr "x") = .ok (.set []) ∧
    (exampleDictC4.lookup_state (pstr "x")).contains (pstr "x") = true ∧
    (NormalizingDictionary.empty nfn none).lookup_value (pstr "x")
      = .error (.keyError (pstr "x")) := by
  have h1 := claim_C7_lookup_missing_key exampleDictC4 (pstr "x") (by decide)
  have h2 := claim_C7_lookup_missing_key (NormalizingDictionary.empty nfn none)
    (pstr "x") (by decide)
  exact ⟨(h1.2 (.set []) rfl).1, (h1.2 (.set []) rfl).2.2, h2.1 rfl⟩

/-- C8: the default normalizer is not idempotent: "- a -" contains a
space, is stripped to no effect, upper-cased, and loses its hyphens,
leaving " A " with fresh surrounding whitespace; a second application
strips it to "A". -/
theorem claim_C8_normalize_not_idempotent :
    nfn (pstr "- a -") = pstr " A " ∧
    nfn (nfn (pstr "- a -")) = pstr "A" ∧
    nfn (nfn (pstr "- a -")) ≠ nfn (pstr "- a -") := by
  decide

/-- C9 counterexample: stripping is governed by a space-character
containment test, not by the presence of whitespace: a string starting
with a tab and holding no space is not stripped (the claim predicts
"A"), while a string whose only whitespace is a leading space is
stripped. -/
theorem claim_C9_counterexample :
    nfn (pstr (String.mk [Char.ofNat 9, 'a'])) = pstr (String.mk [Char.ofNat 9, 'A']) ∧
    nfn (pstr (String.mk [Char.ofNat 9, 'a'])) ≠ pstr "A" ∧
    nfn (pstr " a") = pstr "A" := by
  decide

/-- C9 amended: for every candidate and removal set, the normalizer
returns non-textual values unchanged, and processes a string by
stripping surrounding whitespace exactly when a space character occurs
anywhere in it, upper-casing, and removing every occurrence of each
character of the removal set. -/
theorem claim_C9_amended (chars : List Char) (name : PyObj) :
    normalize_string name chars = normalizeSpecAmended chars name := by
  cases name with
  | set l => rfl
  | atom a =>
    cases a with
    | int n => rfl
    | str s =>
      simp only [normalize_string, normalizeSpecAmended, removal_foldl_eq,
        hasSpaceSpec_eq, stripSpec_eq]

/-- C10: a container produced by invert has an empty original-key set
for every key, because invert fills its result solely through the
default-factory lookup path, which never writes the original-key
indexes. -/
theorem claim_C10_invert_original_keys_empty (d d' : NormalizingDictionary)
    (h : d.invert = .ok d') (k : PyObj) : d'.original_keys k = [] := by
  unfold NormalizingDictionary.original_keys alistGetD
  rw [invert_keys_index_empty d d' h]
  rfl

/-- C10 witness: the inversion of the one-entry container has no
original keys for the key 1 it stores, nor for any other probe. -/
theorem claim_C10_witness :
    invExampleC5.original_keys (pint 1) = [] :=
  claim_C10_invert_original_keys_empty exampleDictC5 invExampleC5 rfl (pint 1)
